import Mathlib

/-!
Verification of the chunked-upload backend (Go sources under
`internal/upload`, `internal/store`, `internal/temp`, `internal/config`,
`internal/api`).

Shallow embedding: machine `int`/`int64` values are modelled as `Int`
(the quantities involved — byte counts, chunk counts — stay far below
2^63 on every path the theorems touch, so wrap-around never occurs and
is not modelled); the scratch disk, the remote repository, and the
database tables are explicit functional state threaded through each
operation, translated statement-by-statement from the Go source.
-/

namespace Stash

/-! ## SHA-256 (`crypto/sha256` as used by `temp.Store.WriteChunk`)

Bytes are naturals `< 256`; 32-bit words are naturals reduced mod 2^32
after every arithmetic step, exactly as the FIPS 180-4 compression
function computes them. -/

/-- 2^32, the modulus for 32-bit words. -/
def w32 : Nat := 4294967296

/-- Rotate a 32-bit word right by `n`. -/
def rotr (n x : Nat) : Nat := ((x >>> n) ||| (x <<< (32 - n))) % w32

/-- 32-bit complement. -/
def compl32 (x : Nat) : Nat := 4294967295 ^^^ x

/-- SHA-256 `Ch` function. -/
def shaCh (x y z : Nat) : Nat := (x &&& y) ^^^ (compl32 x &&& z)

/-- SHA-256 `Maj` function. -/
def shaMaj (x y z : Nat) : Nat := (x &&& y) ^^^ (x &&& z) ^^^ (y &&& z)

/-- SHA-256 big sigma-0. -/
def bigS0 (x : Nat) : Nat := rotr 2 x ^^^ rotr 13 x ^^^ rotr 22 x

/-- SHA-256 big sigma-1. -/
def bigS1 (x : Nat) : Nat := rotr 6 x ^^^ rotr 11 x ^^^ rotr 25 x

/-- SHA-256 small sigma-0. -/
def smallS0 (x : Nat) : Nat := rotr 7 x ^^^ rotr 18 x ^^^ (x >>> 3)

/-- SHA-256 small sigma-1. -/
def smallS1 (x : Nat) : Nat := rotr 17 x ^^^ rotr 19 x ^^^ (x >>> 10)

/-- The 64 SHA-256 round constants. -/
def shaK : List Nat :=
  [0x428A2F98, 0x71374491, 0xB5C0FBCF, 0xE9B5DBA5,
   0x3956C25B, 0x59F111F1, 0x923F82A4, 0xAB1C5ED5,
   0xD807AA98, 0x12835B01, 0x243185BE, 0x550C7DC3,
   0x72BE5D74, 0x80DEB1FE, 0x9BDC06A7, 0xC19BF174,
   0xE49B69C1, 0xEFBE4786, 0xFC19DC6, 0x240CA1CC,
   0x2DE92C6F, 0x4A7484AA, 0x5CB0A9DC, 0x76F988DA,
   0x983E5152, 0xA831C66D, 0xB00327C8, 0xBF597FC7,
   0xC6E00BF3, 0xD5A79147, 0x6CA6351, 0x14292967,
   0x27B70A85, 0x2E1B2138, 0x4D2C6DFC, 0x53380D13,
   0x650A7354, 0x766A0ABB, 0x81C2C92E, 0x92722C85,
   0xA2BFE8A1, 0xA81A664B, 0xC24B8B70, 0xC76C51A3,
   0xD192E819, 0xD6990624, 0xF40E3585, 0x106AA070,
   0x19A4C116, 0x1E376C08, 0x2748774C, 0x34B0BCB5,
   0x391C0CB3, 0x4ED8AA4A, 0x5B9CCA4F, 0x682E6FF3,
   0x748F82EE, 0x78A5636F, 0x84C87814, 0x8CC70208,
   0x90BEFFFA, 0xA4506CEB, 0xBEF9A3F7, 0xC67178F2]

/-- The eight SHA-256 working variables. -/
structure H8 where
  a : Nat
  b : Nat
  c : Nat
  d : Nat
  e : Nat
  f : Nat
  g : Nat
  h : Nat
deriving DecidableEq, Repr

/-- The SHA-256 initial hash value. -/
def shaInit : H8 :=
  ⟨0x6A09E667, 0xBB67AE85, 0x3C6EF372, 0xA54FF53A,
   0x510E527F, 0x9B05688C, 0x1F83D9AB, 0x5BE0CD19⟩

/-- One SHA-256 compression round, fed the pair `(K[i], W[i])`. -/
def shaRound (st : H8) (kw : Nat × Nat) : H8 :=
  let t1 := (st.h + bigS1 st.e + shaCh st.e st.f st.g + kw.1 + kw.2) % w32
  let t2 := (bigS0 st.a + shaMaj st.a st.b st.c) % w32
  ⟨(t1 + t2) % w32, st.a, st.b, st.c, (st.d + t1) % w32, st.e, st.f, st.g⟩

/-- Group a byte list into big-endian 32-bit words. -/
def toWords : List Nat → List Nat
  | b0 :: b1 :: b2 :: b3 :: rest => (((b0 * 256 + b1) * 256 + b2) * 256 + b3) :: toWords rest
  | _ => []

/-- Extend a 16-word block schedule by `n` further words. -/
def extendW : Nat → List Nat → List Nat
  | 0, ws => ws
  | n + 1, ws =>
    let i := ws.length
    let nw := (ws.getD (i - 16) 0 + smallS0 (ws.getD (i - 15) 0)
               + ws.getD (i - 7) 0 + smallS1 (ws.getD (i - 2) 0)) % w32
    extendW n (ws ++ [nw])

/-- Compress one 64-byte block into the running hash state. -/
def shaCompress (st : H8) (block : List Nat) : H8 :=
  let ws := extendW 48 (toWords block)
  let r := (shaK.zip ws).foldl shaRound st
  ⟨(st.a + r.a) % w32, (st.b + r.b) % w32, (st.c + r.c) % w32, (st.d + r.d) % w32,
   (st.e + r.e) % w32, (st.f + r.f) % w32, (st.g + r.g) % w32, (st.h + r.h) % w32⟩

/-- `n` big-endian bytes of a natural. -/
def toBytesBE : Nat → Nat → List Nat
  | 0, _ => []
  | n + 1, x => toBytesBE n (x / 256) ++ [x % 256]

/-- FIPS 180-4 padding: a 0x80 byte, zeros to 56 mod 64, then the
bit length as 8 big-endian bytes. -/
def shaPad (msg : List Nat) : List Nat :=
  msg ++ [128] ++ List.replicate ((119 - msg.length % 64) % 64) 0 ++ toBytesBE 8 (8 * msg.length)

/-- Split a list into 64-byte chunks (the input length is a multiple of
64 whenever this is reached; `fuel` bounds the recursion). -/
def chunks64 (fuel : Nat) (l : List Nat) : List (List Nat) :=
  match fuel, l with
  | 0, _ => []
  | _, [] => []
  | f + 1, l => l.take 64 :: chunks64 f (l.drop 64)

/-- The SHA-256 digest of a byte list, as 32 bytes. -/
def sha256 (msg : List Nat) : List Nat :=
  let padded := shaPad msg
  let fin := (chunks64 padded.length padded).foldl shaCompress shaInit
  toBytesBE 4 fin.a ++ toBytesBE 4 fin.b ++ toBytesBE 4 fin.c ++ toBytesBE 4 fin.d ++
  toBytesBE 4 fin.e ++ toBytesBE 4 fin.f ++ toBytesBE 4 fin.g ++ toBytesBE 4 fin.h

/-! ## Lowercase hex (`encoding/hex.EncodeToString`) -/

/-- A hex digit character, lowercase (`0`-`9`, `a`-`f`). -/
def hexDigit (n : Nat) : Char :=
  if n < 10 then Char.ofNat (48 + n) else Char.ofNat (87 + n)

/-- Two lowercase hex characters of one byte. -/
def byteHex (b : Nat) : List Char := [hexDigit (b / 16), hexDigit (b % 16)]

/-- Lowercase hex encoding of a byte list. -/
def hexEncode (bs : List Nat) : String := String.mk (bs.flatMap byteHex)

/-! ## Decimal rendering and zero padding (`fmt.Sprintf "%05d"`) -/

/-- The decimal digit character of `n < 10`. -/
def digitChar (n : Nat) : Char := Char.ofNat (48 + n)

/-- Decimal digits of a natural, most significant first. -/
def natDigits (n : Nat) : List Char :=
  if h : n < 10 then [digitChar n]
  else natDigits (n / 10) ++ [digitChar (n % 10)]
decreasing_by
  exact Nat.div_lt_self (Nat.lt_of_lt_of_le (by norm_num) (Nat.le_of_not_lt h)) (by norm_num)

/-- Left-pad a string with zeros to width `n` (no-op when already wider). -/
def padZeros (s : String) (n : Nat) : String :=
  String.mk (List.replicate (n - s.length) '0' ++ s.data)

/-- Go's `fmt.Sprintf("%05d", idx)`: zero-padded to overall width 5,
the sign counting toward the width, never truncating. -/
def pad5 (idx : Int) : String :=
  if idx < 0 then "-" ++ padZeros (String.mk (natDigits idx.natAbs)) 4
  else padZeros (String.mk (natDigits idx.toNat)) 5

/-! ## Domain model (`internal/domain/models.go`) -/

/-- `domain.UploadStatus`. -/
inductive UploadStatus
  | pending
  | inProgress
  | processing
  | completed
  | failed
  | aborted
deriving DecidableEq, Repr

/-- `domain.StorageStrategy`. -/
inductive StorageStrategy
  | repoChunks
  | releaseAsset
  | gitLFS
deriving DecidableEq, Repr

/-- `domain.Upload` — an upload session row.  UUIDs are opaque strings
where they feed into paths (session and user ids) and counter-allocated
naturals where only identity matters (file ids). -/
structure Upload where
  id : String
  userID : String
  filename : String
  mimeType : String
  targetPath : String
  strategy : StorageStrategy
  status : UploadStatus
  chunkSizeBytes : Int
  totalChunks : Int
  totalSizeBytes : Int
  receivedChunks : Int
  receivedBytes : Int
  repoName : String
  manifestPath : String
  fileID : Option Nat
  completedAt : Option Nat
deriving DecidableEq, Repr

/-- `domain.UploadChunk` — one staged-chunk row (session implicit:
the model carries a single session's rows). -/
structure UploadChunk where
  chunkIndex : Int
  sizeBytes : Int
  checksum : String
  tempPath : String
deriving DecidableEq, Repr

/-- `domain.ChunkResult`. -/
structure ChunkResult where
  receivedChunk : Int
  nextIndex : Int
  isComplete : Bool
deriving DecidableEq, Repr

/-- `domain.FinalizeResult` (the `fileId` UUID string is modelled by the
allocated natural). -/
structure FinalizeResult where
  fileId : Nat
  path : String
  name : String
  sizeBytes : Int
  completedAt : Nat
deriving DecidableEq, Repr

/-- `config.Config`, the fields the upload service reads. -/
structure Config where
  defaultChunkSizeBytes : Int
  maxChunkSizeBytes : Int
  maxUploadBytes : Int
  releaseMaxBytes : Int
  lfsThresholdBytes : Int
  enableReleaseAssets : Bool
  enableGitLFS : Bool
  tempDir : String
  storageRepo : String
deriving DecidableEq, Repr

/-- Service errors: the two sentinel errors of `internal/store/errors.go`
plus `fmt.Errorf`/`errors.New` messages. -/
inductive SvcError
  | uploadNotFound
  | chunkOutOfOrder
  | msg (s : String)
deriving DecidableEq, Repr

/-- Results of fallible operations are compared by the witnesses, so
`Except` needs decidable equality. -/
instance {ε α : Type} [DecidableEq ε] [DecidableEq α] : DecidableEq (Except ε α) := fun a b =>
  match a, b with
  | .ok x, .ok y =>
    if h : x = y then .isTrue (congrArg Except.ok h)
    else .isFalse (fun hc => h (Except.ok.inj hc))
  | .error x, .error y =>
    if h : x = y then .isTrue (congrArg Except.error h)
    else .isFalse (fun hc => h (Except.error.inj hc))
  | .ok _, .error _ => .isFalse (fun hc => Except.noConfusion hc)
  | .error _, .ok _ => .isFalse (fun hc => Except.noConfusion hc)

/-- The HTTP status `api.Handler.handleChunk` assigns to a service
error: 409 only for `store.ErrChunkOutOfOrder`, 404 for
`store.ErrUploadNotFound`, otherwise the switch default 400. -/
def chunkHttpStatus : SvcError → Nat
  | .chunkOutOfOrder => 409
  | .uploadNotFound => 404
  | .msg _ => 400

/-! ## Scratch disk model (`internal/temp`) -/

/-- The local scratch disk: an association list from path to content.
`fsWrite` models both `os.Create` and a completed copy. -/
abbrev Fs : Type := List (String × List Nat)

/-- Read a file (`none` = does not exist). -/
def fsRead (fs : Fs) (p : String) : Option (List Nat) :=
  match fs.find? (fun e => e.1 = p) with
  | some e => some e.2
  | none => none

/-- Delete a path if present (`os.Remove`; removing a missing path is
the error Go ignores with `_ =`). -/
def fsRemove (fs : Fs) (p : String) : Fs :=
  fs.filter (fun e => e.1 ≠ p)

/-- Create or truncate-and-write a file. -/
def fsWrite (fs : Fs) (p : String) (data : List Nat) : Fs :=
  (p, data) :: fsRemove fs p

/-- Append to a file (used by `assembleFile`'s `io.Copy` loop). -/
def fsAppend (fs : Fs) (p : String) (data : List Nat) : Fs :=
  fsWrite fs p (((fsRead fs p).getD []) ++ data)

/-- `os.Rename src dst` (src exists on every path that reaches it). -/
def fsRename (fs : Fs) (src dst : String) : Fs :=
  match fsRead fs src with
  | some data => fsWrite (fsRemove fs src) dst data
  | none => fs

/-- `os.RemoveAll` of one session's subtree: drop every path under
`basePath/uploadID/`. -/
def fsRemoveTree (fs : Fs) (basePath uploadID : String) : Fs :=
  fs.filter (fun e => ¬ (basePath ++ "/" ++ uploadID ++ "/").isPrefixOf e.1)

/-- File-system events, in the order the scratch store performs them
(for the write-then-rename atomicity contract). -/
inductive FsEvent
  | create (path : String)
  | write (path : String) (bytes : List Nat)
  | close (path : String)
  | rename (src dst : String)
deriving DecidableEq, Repr

/-- `temp.Store.ChunkPath`: `<base>/<uploadID>/chunks/chunk-<%05d>`. -/
def chunkPath (basePath uploadID : String) (chunkIndex : Int) : String :=
  basePath ++ "/" ++ uploadID ++ "/chunks/chunk-" ++ pad5 chunkIndex

/-- What `temp.Store.WriteChunk` returns, plus the final disk state and
the event trace it performed. -/
structure WriteChunkResult where
  path : String
  size : Int
  checksum : String
  fs : Fs
  trace : List FsEvent
deriving DecidableEq, Repr

/-- `temp.Store.WriteChunk`: create `<path>.partial`, stream the bytes
through the SHA-256 hasher into it, close, rename to `<path>`, and
return the path, the byte count and the lowercase hex digest. -/
def writeChunk (basePath uploadID : String) (chunkIndex : Int) (data : List Nat) (fs : Fs) :
    WriteChunkResult :=
  let p := chunkPath basePath uploadID chunkIndex
  let tmp := p ++ ".partial"
  let fs1 := fsWrite fs tmp data
  let fs2 := fsRename fs1 tmp p
  { path := p
    size := (data.length : Int)
    checksum := hexEncode (sha256 data)
    fs := fs2
    trace := [.create tmp, .write tmp data, .close tmp, .rename tmp p] }

/-! ## Remote store and database state -/

/-- One entry of `buildManifest`'s `chunks` array. -/
structure ManifestChunk where
  index : Int
  size : Int
  checksum : String
  path : String
deriving DecidableEq, Repr

/-- The manifest document `upload.Service.buildManifest` renders. -/
structure Manifest where
  schemaVersion : String
  strategy : StorageStrategy
  uploadId : String
  userId : String
  fileName : String
  sizeBytes : Int
  chunkSize : Int
  totalChunks : Int
  chunksPath : String
  chunks : List ManifestChunk
  createdAt : Nat
deriving DecidableEq, Repr

/-- A GitHub-repo object: a raw blob (`PutFile` of chunk bytes) or the
rendered manifest document (`PutFile` of `buildManifest`'s JSON; the
encoding is injective on this structure, so the model stores the
structure). -/
inductive GhObject
  | blob (data : List Nat)
  | manifestDoc (m : Manifest)
deriving DecidableEq, Repr

/-- Strategy metadata recorded on a file row. -/
inductive FileMeta
  | manifestMeta (manifestPath chunksPath : String)
  | releaseMeta (releaseId assetId : Nat) (assetName tag : String)
deriving DecidableEq, Repr

/-- A row of the `files` table (`store.InsertFileParams` as persisted;
strategy metadata kept structured, as `json.Marshal` is injective on
it). -/
structure FileRow where
  id : Nat
  userID : String
  name : String
  sizeBytes : Int
  path : String
  repoName : String
  strategy : StorageStrategy
  blobPath : String
  meta : FileMeta
deriving DecidableEq, Repr

/-- The whole observable state one session's operations touch: its
`uploads` row, its `upload_chunks` rows, the scratch disk, the remote
repository (paths, releases by tag, uploaded assets), the `files`
table, the `user_storage_usage` counters, and a counter allocating
fresh ids (UUIDs and GitHub-assigned release/asset ids). -/
structure World where
  upload : Upload
  chunks : List UploadChunk
  fs : Fs
  gh : List (String × GhObject)
  ghReleases : List (String × Nat)
  ghAssets : List (Nat × String × Nat)
  files : List FileRow
  usageBytes : Int
  usageFiles : Int
  nextId : Nat
deriving DecidableEq, Repr

/-! ## Metadata store operations (`internal/store/postgres.go`) -/

/-- `RecordChunk`: upsert keyed on the chunk index (`ON CONFLICT …
DO UPDATE`). -/
def recordChunk (rows : List UploadChunk) (c : UploadChunk) : List UploadChunk :=
  if rows.any (fun r => r.chunkIndex == c.chunkIndex) then
    rows.map (fun r => if r.chunkIndex == c.chunkIndex then c else r)
  else rows ++ [c]

/-- Insert into a list sorted by chunk index. -/
def insertByIdx (c : UploadChunk) : List UploadChunk → List UploadChunk
  | [] => [c]
  | x :: xs => if c.chunkIndex ≤ x.chunkIndex then c :: x :: xs else x :: insertByIdx c xs

/-- `ListChunks`: the session's rows `ORDER BY chunk_index ASC`. -/
def listChunks (rows : List UploadChunk) : List UploadChunk :=
  rows.foldr insertByIdx []

/-- `AdvanceUploadProgress`: the conditional row update — succeeds only
when `received_chunks` still equals the expected index and the status is
`pending` or `in_progress`; then increments the counters and promotes
`pending` to `in_progress`.  Zero rows affected is reported as
`ErrChunkOutOfOrder`. -/
def advanceUploadProgress (w : World) (chunkIndex : Int) (chunkSize : Int) :
    Except SvcError World :=
  let u := w.upload
  if u.receivedChunks = chunkIndex ∧ (u.status = .pending ∨ u.status = .inProgress) then
    .ok { w with upload :=
      { u with receivedChunks := u.receivedChunks + 1
               receivedBytes := u.receivedBytes + chunkSize
               status := if u.status = .pending then .inProgress else u.status } }
  else .error .chunkOutOfOrder

/-- `InsertFileRecord`: allocate a file id when none was supplied,
default the path to `/`, insert the row, return the id. -/
def insertFileRecord (w : World) (userID name : String) (sizeBytes : Int)
    (path repoName : String) (strategy : StorageStrategy) (blobPath : String)
    (meta : FileMeta) : Nat × World :=
  let fid := w.nextId
  let row : FileRow :=
    { id := fid, userID := userID, name := name, sizeBytes := sizeBytes
      path := if path = "" then "/" else path
      repoName := repoName, strategy := strategy, blobPath := blobPath, meta := meta }
  (fid, { w with files := w.files ++ [row], nextId := w.nextId + 1 })

/-! ## GitHub client effects (`internal/github`), as seen by this
session: `PutFile` always lands the content, `EnsureRelease` is
fetch-by-tag-else-create, `UploadReleaseAsset` records the asset.
Remote-transport failures are outside this pure model; the local-disk
failures the claims exercise are modelled exactly. -/

/-- `github.Client.PutFile`: create-or-update `path` in the storage
repo. -/
def ghPut (gh : List (String × GhObject)) (path : String) (obj : GhObject) :
    List (String × GhObject) :=
  (path, obj) :: gh.filter (fun e => e.1 ≠ path)

/-- `github.Client.EnsureRelease`: return the release for `tag`,
creating it when absent. -/
def ensureRelease (w : World) (tag : String) : Nat × World :=
  match w.ghReleases.find? (fun e => e.1 = tag) with
  | some e => (e.2, w)
  | none => (w.nextId, { w with ghReleases := (tag, w.nextId) :: w.ghReleases
                                nextId := w.nextId + 1 })

/-- `github.Client.UploadReleaseAsset`: attach a named asset to a
release, returning the new asset id. -/
def uploadReleaseAsset (w : World) (releaseId : Nat) (name : String) : Nat × World :=
  (w.nextId, { w with ghAssets := (releaseId, name, w.nextId) :: w.ghAssets
                      nextId := w.nextId + 1 })

/-! ## Upload service (`internal/upload/service.go`) -/

/-- `strings.EqualFold` restricted to the ASCII fold, which coincides
with Go's Unicode simple fold on the hex digests compared here. -/
def equalFold (a b : String) : Bool :=
  a.data.map (fun c => if 'A' ≤ c ∧ c ≤ 'Z' then Char.ofNat (c.toNat + 32) else c)
    = b.data.map (fun c => if 'A' ≤ c ∧ c ≤ 'Z' then Char.ofNat (c.toNat + 32) else c)

/-- `Service.pickStrategy`: git-lfs is tested first, then release
assets, else repo chunks. -/
def pickStrategy (cfg : Config) (size : Int) : StorageStrategy :=
  if cfg.enableGitLFS ∧ size ≤ cfg.lfsThresholdBytes then .gitLFS
  else if cfg.enableReleaseAssets ∧ size ≤ cfg.releaseMaxBytes then .releaseAsset
  else .repoChunks

/-- The chunk-size computation of `Service.InitUpload`: start from the
configured default, cap at the declared size, cap at the configured
max, and fall back to the default if that produced zero. -/
def initChunkSize (cfg : Config) (size : Int) : Int :=
  let c1 := if size < cfg.defaultChunkSizeBytes then size else cfg.defaultChunkSizeBytes
  let c2 := if c1 > cfg.maxChunkSizeBytes then cfg.maxChunkSizeBytes else c1
  if c2 = 0 then cfg.defaultChunkSizeBytes else c2

/-- The total-chunk computation of `Service.InitUpload`:
`size / chunkSize`, plus one when the division leaves a remainder.
(Both operands are positive on every reachable path, where Go's
truncating division agrees with `Int` division.) -/
def initTotalChunks (size chunkSize : Int) : Int :=
  size / chunkSize + (if size % chunkSize ≠ 0 then 1 else 0)

/-- What `Service.InitUpload` answers (the session UUID is random and
not modelled; `repoName`/`maxUploadSize` echo the configuration). -/
structure InitResponse where
  chunkSize : Int
  totalChunks : Int
  strategy : StorageStrategy
deriving DecidableEq, Repr

/-- `Service.InitUpload`: validation, chunk sizing and strategy
selection.  (The created `uploads` row persists these same values;
its insertion is not needed by any claim about the response.) -/
def initUpload (cfg : Config) (fileName : String) (size : Int) :
    Except SvcError InitResponse :=
  if fileName = "" then .error (.msg "filename is required")
  else if size ≤ 0 then .error (.msg "file size must be greater than zero")
  else if size > cfg.maxUploadBytes then
    .error (.msg "file size exceeds max limit")
  else
    let chunkSize := initChunkSize cfg size
    .ok { chunkSize := chunkSize
          totalChunks := initTotalChunks size chunkSize
          strategy := pickStrategy cfg size }

/-- `Service.HandleChunk`, step for step: terminal-status short
circuits, the strict ordering policy, the scratch write, the checksum
comparison, `RecordChunk`, and the conditional progress advance. -/
def handleChunk (cfg : Config) (w : World) (chunkIndex : Int) (data : List Nat)
    (checksumHint : String) : Except SvcError ChunkResult × World :=
  let u := w.upload
  if u.status = .completed then
    (.ok { receivedChunk := chunkIndex, nextIndex := u.totalChunks, isComplete := true }, w)
  else if u.status = .aborted then
    (.error (.msg "upload aborted"), w)
  else if u.status = .failed then
    (.error (.msg "upload failed"), w)
  else if chunkIndex < u.receivedChunks then
    (.ok { receivedChunk := chunkIndex, nextIndex := u.receivedChunks
           isComplete := u.receivedChunks == u.totalChunks }, w)
  else if chunkIndex > u.receivedChunks then
    (.error (.msg ("unexpected chunk index " ++ toString chunkIndex ++ ", expected "
        ++ toString u.receivedChunks)), w)
  else
    let r := writeChunk cfg.tempDir u.id chunkIndex data w.fs
    if checksumHint ≠ "" ∧ equalFold checksumHint r.checksum = false then
      (.error (.msg ("checksum mismatch for chunk " ++ toString chunkIndex)),
       { w with fs := fsRemove r.fs r.path })
    else
      let w2 := { w with fs := r.fs
                         chunks := recordChunk w.chunks
                           { chunkIndex := chunkIndex, sizeBytes := r.size
                             checksum := r.checksum, tempPath := r.path } }
      match advanceUploadProgress w2 chunkIndex r.size with
      | .error e => (.error e, w2)
      | .ok w3 =>
        (.ok { receivedChunk := chunkIndex, nextIndex := chunkIndex + 1
               isComplete := chunkIndex + 1 == u.totalChunks }, w3)

/-- `Service.Abort`: refuse on `completed`; otherwise set the status to
`aborted` unconditionally, delete the chunk rows, and remove the
scratch subtree. -/
def abortUpload (cfg : Config) (w : World) : Except SvcError World :=
  if w.upload.status = .completed then .error (.msg "cannot abort completed upload")
  else .ok { w with upload := { w.upload with status := .aborted }
                    chunks := []
                    fs := fsRemoveTree w.fs cfg.tempDir w.upload.id }

/-- The per-chunk loop of `Service.finalizeRepoChunks`: read each
staged chunk from scratch disk and `PutFile` it at
`<chunksDir>/chunk-<%05d>`; a failed read stops the loop, keeping the
pushes already made. -/
def pushChunks (fs : Fs) (chunksDir : String) :
    List UploadChunk → List (String × GhObject) → Except SvcError Unit × List (String × GhObject)
  | [], gh => (.ok (), gh)
  | c :: rest, gh =>
    match fsRead fs c.tempPath with
    | none => (.error (.msg ("open " ++ c.tempPath ++ ": no such file or directory")), gh)
    | some data =>
      pushChunks fs chunksDir rest (ghPut gh (chunksDir ++ "/chunk-" ++ pad5 c.chunkIndex) (.blob data))

/-- `Service.buildManifest`. -/
def buildManifest (u : Upload) (chunks : List UploadChunk) (chunksDir : String)
    (now : Nat) : Manifest :=
  { schemaVersion := "2024-11-01"
    strategy := u.strategy
    uploadId := u.id
    userId := u.userID
    fileName := u.filename
    sizeBytes := u.totalSizeBytes
    chunkSize := u.chunkSizeBytes
    totalChunks := u.totalChunks
    chunksPath := chunksDir
    chunks := chunks.map (fun c =>
      { index := c.chunkIndex, size := c.sizeBytes, checksum := c.checksum
        path := chunksDir ++ "/chunk-" ++ pad5 c.chunkIndex })
    createdAt := now }

/-- `Service.finalizeRepoChunks`: push every chunk, write the manifest,
record the manifest path on the session row, insert the file row whose
blob reference is the manifest path. -/
def finalizeRepoChunks (w : World) (chunks : List UploadChunk) (now : Nat) :
    Except SvcError Nat × World :=
  let u := w.upload
  let root := "uploads/" ++ u.userID ++ "/" ++ u.id
  let chunksDir := root ++ "/chunks"
  match pushChunks w.fs chunksDir chunks w.gh with
  | (.error e, gh1) => (.error e, { w with gh := gh1 })
  | (.ok _, gh1) =>
    let manifestPath := root ++ "/manifest.json"
    let gh2 := ghPut gh1 manifestPath (.manifestDoc (buildManifest u chunks chunksDir now))
    let w2 := { w with gh := gh2, upload := { w.upload with manifestPath := manifestPath } }
    let (fid, w3) := insertFileRecord w2 u.userID u.filename u.totalSizeBytes u.targetPath
      u.repoName u.strategy manifestPath (.manifestMeta manifestPath chunksDir)
    (.ok fid, w3)

/-- `assembleFile`'s copy loop: append each scratch chunk to the
destination in list order; a missing chunk file stops the loop with the
partial file left behind. -/
def appendChunks (dest : String) : List UploadChunk → Fs → Except SvcError Unit × Fs
  | [], fs => (.ok (), fs)
  | c :: rest, fs =>
    match fsRead fs c.tempPath with
    | none => (.error (.msg ("open " ++ c.tempPath ++ ": no such file or directory")), fs)
    | some data => appendChunks dest rest (fsAppend fs dest data)

/-- `assembleFile`: create the destination then concatenate the chunks
into it. -/
def assembleFile (fs : Fs) (dest : String) (chunks : List UploadChunk) :
    Except SvcError Unit × Fs :=
  appendChunks dest chunks (fsWrite fs dest [])

/-- `Service.finalizeReleaseAsset`: assemble the chunks at
`<tempDir>/<id>/assembled.bin`, ensure the `upload-<id>` release,
upload the assembled bytes as an asset named after the file, insert the
file row with blob reference `release:<releaseId>:<assetId>`. -/
def finalizeReleaseAsset (cfg : Config) (w : World) (chunks : List UploadChunk) :
    Except SvcError Nat × World :=
  let u := w.upload
  let assembled := cfg.tempDir ++ "/" ++ u.id ++ "/assembled.bin"
  match assembleFile w.fs assembled chunks with
  | (.error e, fs1) => (.error e, { w with fs := fs1 })
  | (.ok _, fs1) =>
    let w1 := { w with fs := fs1 }
    let tag := "upload-" ++ u.id
    let (releaseId, w2) := ensureRelease w1 tag
    let (assetId, w3) := uploadReleaseAsset w2 releaseId u.filename
    let (fid, w4) := insertFileRecord w3 u.userID u.filename u.totalSizeBytes u.targetPath
      u.repoName u.strategy ("release:" ++ toString releaseId ++ ":" ++ toString assetId)
      (.releaseMeta releaseId assetId u.filename tag)
    (.ok fid, w4)

/-- The strategy dispatch of `Service.Finalize` (`git_lfs` aliases the
repo-chunks materializer). -/
def materialize (cfg : Config) (w : World) (chunks : List UploadChunk) (now : Nat) :
    Except SvcError Nat × World :=
  match w.upload.strategy with
  | .repoChunks => finalizeRepoChunks w chunks now
  | .gitLFS => finalizeRepoChunks w chunks now
  | .releaseAsset => finalizeReleaseAsset cfg w chunks

/-- `Service.Finalize`: replay short-circuit for a completed session
with a linked file; the received-count and chunk-row-count checks;
status to `processing`; the strategy materializer (failure puts the
session in `failed`); `LinkFile`; the storage-usage upsert; and the
scratch-tree removal. -/
def finalize (cfg : Config) (w : World) (now : Nat) :
    Except SvcError FinalizeResult × World :=
  let u := w.upload
  if u.status = .completed ∧ u.fileID.isSome then
    (.ok { fileId := u.fileID.getD 0, path := u.targetPath, name := u.filename
           sizeBytes := u.totalSizeBytes, completedAt := u.completedAt.getD now }, w)
  else if u.receivedChunks ≠ u.totalChunks then
    (.error (.msg ("cannot finalize: received " ++ toString u.receivedChunks ++ "/"
        ++ toString u.totalChunks ++ " chunks")), w)
  else
    let chunks := listChunks w.chunks
    if (chunks.length : Int) ≠ u.totalChunks then
      (.error (.msg ("chunk manifest incomplete (" ++ toString chunks.length ++ "/"
          ++ toString u.totalChunks ++ ")")), w)
    else
      let w1 := { w with upload := { w.upload with status := .processing } }
      match materialize cfg w1 chunks now with
      | (.error e, w2) => (.error e, { w2 with upload := { w2.upload with status := .failed } })
      | (.ok fid, w2) =>
        let w3 := { w2 with upload :=
          { w2.upload with fileID := some fid, status := .completed, completedAt := some now } }
        let w4 := { w3 with usageBytes := w3.usageBytes + u.totalSizeBytes
                            usageFiles := w3.usageFiles + 1 }
        let w5 := { w4 with fs := fsRemoveTree w4.fs cfg.tempDir u.id }
        (.ok { fileId := fid, path := u.targetPath, name := u.filename
               sizeBytes := u.totalSizeBytes, completedAt := now }, w5)

/-- The sum of the recorded chunk byte counts of a session. -/
def sumChunkSizes (rows : List UploadChunk) : Int :=
  (rows.map (fun c => c.sizeBytes)).sum

/-! ## Character-class predicates used to state digest and path
properties -/

/-- A lowercase hex character: `0`-`9` or `a`-`f`. -/
def isLowerHexChar (c : Char) : Bool :=
  (decide ('0' ≤ c) && decide (c ≤ '9')) || (decide ('a' ≤ c) && decide (c ≤ 'f'))

/-- Every character of the string is lowercase hex. -/
def isLowerHex (s : String) : Bool := s.data.all isLowerHexChar

/-- Every character of the string is a decimal digit. -/
def isDigitStr (s : String) : Bool :=
  s.data.all (fun c => decide ('0' ≤ c) && decide (c ≤ '9'))

/-! ## Concrete fixtures for the witnesses and counterexamples -/

/-- The compiled-in configuration defaults of `internal/config`:
25 MiB default chunk, 50 MiB max chunk, 10 GiB max upload, 2 GiB
release-asset limit, 1 GiB LFS threshold, release assets enabled,
git-lfs disabled. -/
def cfgDefault : Config :=
  { defaultChunkSizeBytes := 26214400, maxChunkSizeBytes := 52428800
    maxUploadBytes := 10737418240, releaseMaxBytes := 2147483648
    lfsThresholdBytes := 1073741824, enableReleaseAssets := true, enableGitLFS := false
    tempDir := "tmp/uploads", storageRepo := "stash-storage" }

/-- A template session: 3 chunks of 5 bytes, freshly initialized. -/
def baseUpload : Upload :=
  { id := "sess", userID := "user", filename := "f.bin"
    mimeType := "application/octet-stream", targetPath := "/docs"
    strategy := .repoChunks, status := .pending, chunkSizeBytes := 5
    totalChunks := 3, totalSizeBytes := 15, receivedChunks := 0, receivedBytes := 0
    repoName := "stash-storage", manifestPath := "", fileID := none, completedAt := none }

/-- A template world around `baseUpload` with empty stores. -/
def baseWorld : World :=
  { upload := baseUpload, chunks := [], fs := [], gh := [], ghReleases := [], ghAssets := []
    files := [], usageBytes := 0, usageFiles := 0, nextId := 7 }

/-- C1 counterexample state: a session that failed. -/
def wFailed : World :=
  { baseWorld with upload := { baseUpload with status := .failed, receivedChunks := 2
                                               receivedBytes := 10 } }

/-- A completed session with a linked file. -/
def wCompleted : World :=
  { baseWorld with upload := { baseUpload with status := .completed, receivedChunks := 3
                                               receivedBytes := 15, fileID := some 5
                                               completedAt := some 11 } }

/-- C3 counterexample state: an aborted session that had already
received one chunk. -/
def wAborted : World :=
  { baseWorld with upload := { baseUpload with status := .aborted, receivedChunks := 1
                                               receivedBytes := 5 } }

/-- C3 witness state: an in-progress session with two chunks received. -/
def wInProgress : World :=
  { baseWorld with upload := { baseUpload with status := .inProgress, receivedChunks := 2
                                               receivedBytes := 10 } }

/-- C4 counterexample state: every chunk received and recorded, the
scratch file readable, but the recorded chunk bytes (5) disagree with
the declared size (10). -/
def wC4 : World :=
  { baseWorld with
      upload := { baseUpload with id := "s4", status := .inProgress, totalChunks := 1
                                  totalSizeBytes := 10, receivedChunks := 1, receivedBytes := 5 }
      chunks := [{ chunkIndex := 0, sizeBytes := 5, checksum := "c0"
                   tempPath := "tmp/uploads/s4/chunks/chunk-00000" }]
      fs := [("tmp/uploads/s4/chunks/chunk-00000", [1, 2, 3, 4, 5])] }

/-- C4 witness state (i): counters say complete but a chunk row is
missing. -/
def wC4i : World :=
  { baseWorld with
      upload := { baseUpload with status := .inProgress, totalChunks := 2
                                  totalSizeBytes := 10, receivedChunks := 2, receivedBytes := 10 }
      chunks := [{ chunkIndex := 0, sizeBytes := 5, checksum := "c0"
                   tempPath := "tmp/uploads/sess/chunks/chunk-00000" }] }

/-- C4 witness state (ii): the chunk row is present but its scratch
file is gone. -/
def wC4ii : World :=
  { baseWorld with
      upload := { baseUpload with status := .inProgress, totalChunks := 1
                                  totalSizeBytes := 5, receivedChunks := 1, receivedBytes := 5 }
      chunks := [{ chunkIndex := 0, sizeBytes := 5, checksum := "c0"
                   tempPath := "tmp/uploads/sess/chunks/chunk-00000" }]
      fs := [] }

/-- C5 counterexample configuration: both strategy flags enabled, the
size under both thresholds. -/
def cfgC5 : Config :=
  { defaultChunkSizeBytes := 25, maxChunkSizeBytes := 50, maxUploadBytes := 10000
    releaseMaxBytes := 2000, lfsThresholdBytes := 1000
    enableReleaseAssets := true, enableGitLFS := true
    tempDir := "t", storageRepo := "r" }

/-- C5 witness configuration: release assets enabled, git-lfs off. -/
def cfgC5w : Config := { cfgC5 with enableGitLFS := false }

/-- C7 witness state: a fresh single-chunk session. -/
def wC7 : World :=
  { baseWorld with upload := { baseUpload with id := "s7", totalChunks := 1
                                               totalSizeBytes := 1 } }

/-- C9 witness state: a single-chunk session ready to finalize. -/
def wC9 : World :=
  { baseWorld with
      upload := { baseUpload with id := "s9", status := .inProgress, totalChunks := 1
                                  totalSizeBytes := 5, receivedChunks := 1, receivedBytes := 5 }
      chunks := [{ chunkIndex := 0, sizeBytes := 5, checksum := "c0"
                   tempPath := "tmp/uploads/s9/chunks/chunk-00000" }]
      fs := [("tmp/uploads/s9/chunks/chunk-00000", [9, 9, 9, 9, 9])] }

/-! # Theorems -/

/-! ## File-system lemmas -/

theorem fsRead_fsRemove_self (fs : Fs) (p : String) :
    fsRead (fsRemove fs p) p = none := by
  have h : (fsRemove fs p).find? (fun e => e.1 = p) = none := by
    apply List.find?_eq_none.mpr
    intro x hx
    have hm := List.of_mem_filter hx
    simpa using hm
  simp [fsRead, h]

theorem fsRead_fsRemove_ne (fs : Fs) (p q : String) (h : q ≠ p) :
    fsRead (fsRemove fs p) q = fsRead fs q := by
  induction fs with
  | nil => rfl
  | cons e rest ih =>
    by_cases hp : e.1 = p
    · have hq : ¬ e.1 = q := fun hqe => h (by rw [← hqe]; exact hp)
      show fsRead (List.filter _ (e :: rest)) q = _
      rw [List.filter_cons_of_neg (by simpa using hp)]
      unfold fsRead
      rw [List.find?_cons_of_neg rest (by simpa using hq)]
      exact ih
    · show fsRead (List.filter _ (e :: rest)) q = _
      rw [List.filter_cons_of_pos (by simpa using hp)]
      unfold fsRead
      by_cases hq : e.1 = q
      · rw [List.find?_cons_of_pos _ (by simpa using hq),
          List.find?_cons_of_pos rest (by simpa using hq)]
      · rw [List.find?_cons_of_neg _ (by simpa using hq),
          List.find?_cons_of_neg rest (by simpa using hq)]
        exact ih

theorem fsRead_fsWrite_self (fs : Fs) (p : String) (v : List Nat) :
    fsRead (fsWrite fs p v) p = some v := by
  simp [fsRead, fsWrite, List.find?]

theorem fsRead_fsWrite_ne (fs : Fs) (p q : String) (v : List Nat) (h : q ≠ p) :
    fsRead (fsWrite fs p v) q = fsRead fs q := by
  simp only [fsWrite, fsRead, List.find?]
  have : ¬ p = q := fun hp => h hp.symm
  simp [this]
  have := fsRead_fsRemove_ne fs p q h
  simpa [fsRead] using this

/-- Appending a nonempty string changes a string (by length). -/
theorem append_ne_self (s t : String) (h : t ≠ "") : s ++ t ≠ s := by
  intro heq
  apply h
  have hl := congrArg String.length heq
  rw [String.length_append] at hl
  have : t.length = 0 := by omega
  exact String.ext (List.length_eq_zero.mp this)

/-! ## Claim C5 — strategy selection -/

/-- C5, as stated, is false: with both flags enabled and the size under
both thresholds, `pickStrategy` answers `git-lfs`, not `release-asset`
— the git-lfs test comes first, so the selection is not independent of
the git-lfs flag. -/
theorem c5_counterexample :
    cfgC5.enableReleaseAssets = true ∧ (500 : Int) ≤ cfgC5.releaseMaxBytes
    ∧ pickStrategy cfgC5 500 = .gitLFS
    ∧ pickStrategy cfgC5 500 ≠ .releaseAsset := by decide

/-- C5 amended: whenever release assets are enabled and the size is at
most `release_max_bytes`, the selector answers `release-asset` —
provided the git-lfs rule (tested first) does not fire. -/
theorem c5_amended (cfg : Config) (s : Int)
    (hrel : cfg.enableReleaseAssets = true) (hsz : s ≤ cfg.releaseMaxBytes)
    (hnolfs : ¬ (cfg.enableGitLFS = true ∧ s ≤ cfg.lfsThresholdBytes)) :
    pickStrategy cfg s = .releaseAsset := by
  unfold pickStrategy
  rw [if_neg, if_pos]
  · exact ⟨by simp [hrel], hsz⟩
  · intro hc
    exact hnolfs ⟨by simpa using hc.1, hc.2⟩

/-- C5 amended witness at a concrete configuration and size. -/
theorem c5_witness : pickStrategy cfgC5w 500 = .releaseAsset :=
  c5_amended cfgC5w 500 (by decide) (by decide) (by decide)

/-! ## Claim C6 — chunk sizing at init -/

/-- C6, as stated, is false: with the default configuration a 5-byte
file is accepted with chunk size 5, which is not in the claimed clamp
interval `[1 MiB, 50 MiB]`. -/
theorem c6_counterexample :
    initUpload cfgDefault "x.bin" 5
      = .ok { chunkSize := 5, totalChunks := 1, strategy := .releaseAsset }
    ∧ ¬ ((1048576 : Int) ≤ 5) := by decide

/-- C6 amended: for every accepted init (configuration with a positive
default chunk size not above the configured max), the returned chunk
size is `min(default, size)` — there is no 1 MiB lower clamp, and the
upper cap is the configured max, which never binds because the default
is already at most the max — so it never exceeds the size; the returned
total chunk count is the exact ceiling `⌈size / chunkSize⌉`,
characterized by its bounding inequalities. -/
theorem c6_amended (cfg : Config) (name : String) (s : Int) (r : InitResponse)
    (hd : 0 < cfg.defaultChunkSizeBytes)
    (hdm : cfg.defaultChunkSizeBytes ≤ cfg.maxChunkSizeBytes)
    (hok : initUpload cfg name s = .ok r) :
    r.chunkSize = min cfg.defaultChunkSizeBytes s
    ∧ 0 < r.chunkSize ∧ r.chunkSize ≤ s ∧ 0 < r.totalChunks
    ∧ (r.totalChunks - 1) * r.chunkSize < s ∧ s ≤ r.totalChunks * r.chunkSize := by
  unfold initUpload at hok
  split at hok
  · exact absurd hok (by simp)
  split at hok
  · exact absurd hok (by simp)
  split at hok
  · exact absurd hok (by simp)
  rename_i hname hspos hsmax
  have hs : 0 < s := by omega
  rw [Except.ok.injEq] at hok
  subst hok
  have hcs : initChunkSize cfg s = min cfg.defaultChunkSizeBytes s := by
    unfold initChunkSize
    simp only [min_def]
    split_ifs <;> omega
  have hcspos : 0 < initChunkSize cfg s := by
    rw [hcs]
    simp only [min_def]
    split_ifs <;> omega
  have hcsle : initChunkSize cfg s ≤ s := by
    rw [hcs]
    simp only [min_def]
    split_ifs <;> omega
  have hkey : 0 < initTotalChunks s (initChunkSize cfg s)
      ∧ (initTotalChunks s (initChunkSize cfg s) - 1) * initChunkSize cfg s < s
      ∧ s ≤ initTotalChunks s (initChunkSize cfg s) * initChunkSize cfg s := by
    set c := initChunkSize cfg s
    have hid : c * (s / c) + s % c = s := Int.ediv_add_emod s c
    have hm0 : 0 ≤ s % c := Int.emod_nonneg s (ne_of_gt hcspos)
    have hmlt : s % c < c := Int.emod_lt_of_pos s hcspos
    have hq0 : 0 ≤ s / c := by
      apply Int.ediv_nonneg <;> linarith
    have hqpos : 0 < s / c := by
      by_contra hq
      push_neg at hq
      have hle : c * (s / c) ≤ 0 := mul_nonpos_iff.mpr (Or.inl ⟨le_of_lt hcspos, hq⟩)
      linarith
    unfold initTotalChunks
    by_cases hzero : s % c = 0
    · rw [if_neg (not_not_intro hzero)]
      refine ⟨by linarith, ?_, ?_⟩
      · have e3 : (s / c + 0 - 1) * c = c * (s / c) - c := by ring
        rw [e3]
        linarith
      · have e4 : (s / c + 0) * c = c * (s / c) := by ring
        rw [e4]
        linarith
    · rw [if_pos hzero]
      have hmpos : 0 < s % c := lt_of_le_of_ne hm0 (Ne.symm hzero)
      refine ⟨by linarith, ?_, ?_⟩
      · have e5 : (s / c + 1 - 1) * c = c * (s / c) := by ring
        rw [e5]
        linarith
      · have e6 : (s / c + 1) * c = c * (s / c) + c := by ring
        rw [e6]
        linarith
  exact ⟨hcs, hcspos, hcsle, hkey.1, hkey.2.1, hkey.2.2⟩

/-- C6 amended witness at a concrete accepted init. -/
theorem c6_witness :
    (100 : Int) = min cfgDefault.defaultChunkSizeBytes 100
    ∧ (0 : Int) < 1 ∧ (100 : Int) ≤ 1 * 100 := by
  have h := c6_amended cfgDefault "a.bin" 100
    { chunkSize := 100, totalChunks := 1, strategy := .releaseAsset }
    (by decide) (by decide) (by decide)
  exact ⟨h.1, h.2.2.2.1, h.2.2.2.2.2⟩

/-! ## Claim C10 — put_chunk on a completed session -/

/-- C10: a put_chunk on a `completed` session succeeds with
`isComplete = true` and `nextChunkIndex = totalChunks`, writes no
chunk, and leaves the whole state untouched. -/
theorem c10_completed_chunk (cfg : Config) (w : World) (idx : Int) (data : List Nat)
    (hint : String) (hc : w.upload.status = .completed) :
    handleChunk cfg w idx data hint =
      (.ok { receivedChunk := idx, nextIndex := w.upload.totalChunks, isComplete := true }, w) := by
  unfold handleChunk
  rw [if_pos hc]

/-- C10 witness at a concrete completed session. -/
theorem c10_witness :
    handleChunk cfgDefault wCompleted 0 [1] ""
      = (.ok { receivedChunk := 0, nextIndex := wCompleted.upload.totalChunks
               isComplete := true }, wCompleted) :=
  c10_completed_chunk cfgDefault wCompleted 0 [1] "" (by decide)

/-! ## Claim C2 — out-of-order chunk rejection -/

/-- C2, as stated, is false: the ahead-of-order rejection is a plain
formatted error, which the handler's switch maps to 400
(`ErrChunkOutOfOrder`, the only error mapped to 409, is not what this
branch returns). -/
theorem c2_counterexample :
    handleChunk cfgDefault baseWorld 1 [0] ""
      = (.error (.msg "unexpected chunk index 1, expected 0"), baseWorld)
    ∧ chunkHttpStatus (.msg "unexpected chunk index 1, expected 0") = 400
    ∧ (400 : Nat) ≠ 409 := by decide

/-- C2 amended: a chunk index ahead of `received_chunks` on a
non-terminal session is rejected with the error
`unexpected chunk index i, expected k`, carried as HTTP 400 (not 409),
and the session state — counters, status, chunk rows, scratch disk —
is unchanged. -/
theorem c2_amended (cfg : Config) (w : World) (idx : Int) (data : List Nat) (hint : String)
    (hs1 : w.upload.status ≠ .completed) (hs2 : w.upload.status ≠ .aborted)
    (hs3 : w.upload.status ≠ .failed) (hgt : w.upload.receivedChunks < idx) :
    handleChunk cfg w idx data hint
      = (.error (.msg ("unexpected chunk index " ++ toString idx ++ ", expected "
          ++ toString w.upload.receivedChunks)), w)
    ∧ chunkHttpStatus (.msg ("unexpected chunk index " ++ toString idx ++ ", expected "
          ++ toString w.upload.receivedChunks)) = 400 := by
  constructor
  · unfold handleChunk
    rw [if_neg hs1, if_neg hs2, if_neg hs3,
      if_neg (by omega : ¬ idx < w.upload.receivedChunks), if_pos hgt]
  · rfl

/-- C2 amended witness at a concrete session and index. -/
theorem c2_witness :
    handleChunk cfgDefault baseWorld 2 [] ""
      = (.error (.msg ("unexpected chunk index " ++ toString (2 : Int) ++ ", expected "
          ++ toString baseWorld.upload.receivedChunks)), baseWorld)
    ∧ chunkHttpStatus (.msg ("unexpected chunk index " ++ toString (2 : Int) ++ ", expected "
          ++ toString baseWorld.upload.receivedChunks)) = 400 :=
  c2_amended cfgDefault baseWorld 2 [] "" (by decide) (by decide) (by decide) (by decide)

/-! ## Claim C3 — idempotent replay of an already-received index -/

/-- C3, as stated over every session, is false: on an aborted session
with one received chunk, a put_chunk at index `0 < 1 = received_chunks`
returns the error `upload aborted` instead of idempotent success. -/
theorem c3_counterexample :
    wAborted.upload.receivedChunks = 1 ∧ (0 : Int) < 1
    ∧ handleChunk cfgDefault wAborted 0 [] ""
        = (.error (.msg "upload aborted"), wAborted) := by decide

/-- C3 amended: on a session whose status is `pending`, `in_progress`
or `processing`, a put_chunk at an index below `received_chunks`
succeeds idempotently — nothing is written or changed, and the reply
carries `nextChunkIndex = received_chunks`. -/
theorem c3_amended (cfg : Config) (w : World) (idx : Int) (data : List Nat) (hint : String)
    (hs : w.upload.status = .pending ∨ w.upload.status = .inProgress
      ∨ w.upload.status = .processing)
    (hlt : idx < w.upload.receivedChunks) :
    handleChunk cfg w idx data hint
      = (.ok { receivedChunk := idx, nextIndex := w.upload.receivedChunks
               isComplete := w.upload.receivedChunks == w.upload.totalChunks }, w) := by
  have hs1 : w.upload.status ≠ .completed := by rcases hs with h|h|h <;> simp [h]
  have hs2 : w.upload.status ≠ .aborted := by rcases hs with h|h|h <;> simp [h]
  have hs3 : w.upload.status ≠ .failed := by rcases hs with h|h|h <;> simp [h]
  unfold handleChunk
  rw [if_neg hs1, if_neg hs2, if_neg hs3, if_pos hlt]

/-- C3 amended witness at a concrete in-progress session. -/
theorem c3_witness :
    handleChunk cfgDefault wInProgress 0 [7] ""
      = (.ok { receivedChunk := 0, nextIndex := wInProgress.upload.receivedChunks
               isComplete := wInProgress.upload.receivedChunks == wInProgress.upload.totalChunks },
         wInProgress) :=
  c3_amended cfgDefault wInProgress 0 [7] "" (.inr (.inl (by decide))) (by decide)

/-! ## Claim C1 — terminal statuses -/

/-- C1, as stated, is false: `Abort` only guards against `completed`,
so aborting a `failed` session succeeds and moves its status to
`aborted` — a transition out of a terminal status. -/
theorem c1_counterexample :
    wFailed.upload.status = .failed
    ∧ (abortUpload cfgDefault wFailed).toOption.map (fun w => w.upload.status)
        = some .aborted := by decide

/-- C1 amended: put_chunk never changes the state of a session in any
terminal status, and a `completed` session with a linked file is also
immutable under abort (refused) and finalize (idempotent replay); the
exception the counterexample forces is that abort (and, with a full
chunk set, finalize) does move a `failed` session. -/
theorem c1_amended (cfg : Config) (w : World) (idx : Int) (data : List Nat) (hint : String)
    (now : Nat)
    (hterm : w.upload.status = .completed ∨ w.upload.status = .aborted
      ∨ w.upload.status = .failed) :
    (handleChunk cfg w idx data hint).2 = w
    ∧ (w.upload.status = .completed → w.upload.fileID.isSome = true →
        (abortUpload cfg w = .error (.msg "cannot abort completed upload")
         ∧ finalize cfg w now
             = (.ok { fileId := w.upload.fileID.getD 0, path := w.upload.targetPath
                      name := w.upload.filename, sizeBytes := w.upload.totalSizeBytes
                      completedAt := w.upload.completedAt.getD now }, w))) := by
  constructor
  · rcases hterm with h|h|h
    · unfold handleChunk
      rw [if_pos h]
    · unfold handleChunk
      rw [if_neg (by simp [h]), if_pos h]
    · unfold handleChunk
      rw [if_neg (by simp [h]), if_neg (by simp [h]), if_pos h]
  · intro hc hf
    constructor
    · unfold abortUpload
      rw [if_pos hc]
    · unfold finalize
      rw [if_pos ⟨hc, hf⟩]

/-- C1 amended witness at a concrete completed session. -/
theorem c1_witness :
    (handleChunk cfgDefault wCompleted 1 [2] "").2 = wCompleted
    ∧ abortUpload cfgDefault wCompleted = .error (.msg "cannot abort completed upload")
    ∧ finalize cfgDefault wCompleted 99
        = (.ok { fileId := wCompleted.upload.fileID.getD 0
                 path := wCompleted.upload.targetPath
                 name := wCompleted.upload.filename
                 sizeBytes := wCompleted.upload.totalSizeBytes
                 completedAt := wCompleted.upload.completedAt.getD 99 }, wCompleted) := by
  have h := c1_amended cfgDefault wCompleted 1 [2] "" 99 (.inl (by decide))
  have h3 := h.2 (by decide) (by decide)
  exact ⟨h.1, h3.1, h3.2⟩

/-! ## Claim C7 — checksum mismatch on the next expected chunk -/

/-- C7: a put_chunk at the next expected index whose client checksum
does not (case-insensitively) match the lowercase hex SHA-256 of the
received bytes fails with `checksum mismatch for chunk i` carried as
HTTP 400; no scratch file remains at the chunk's final path (nor at its
`.partial` staging path), and the session row and chunk rows are
untouched. -/
theorem c7_checksum_mismatch (cfg : Config) (w : World) (idx : Int) (data : List Nat)
    (hint : String)
    (hs1 : w.upload.status ≠ .completed) (hs2 : w.upload.status ≠ .aborted)
    (hs3 : w.upload.status ≠ .failed)
    (hidx : idx = w.upload.receivedChunks)
    (hhint : hint ≠ "")
    (hmm : equalFold hint (hexEncode (sha256 data)) = false) :
    (handleChunk cfg w idx data hint).1
        = .error (.msg ("checksum mismatch for chunk " ++ toString idx))
    ∧ chunkHttpStatus (.msg ("checksum mismatch for chunk " ++ toString idx)) = 400
    ∧ fsRead (handleChunk cfg w idx data hint).2.fs (chunkPath cfg.tempDir w.upload.id idx) = none
    ∧ fsRead (handleChunk cfg w idx data hint).2.fs
        (chunkPath cfg.tempDir w.upload.id idx ++ ".partial") = none
    ∧ (handleChunk cfg w idx data hint).2.upload = w.upload
    ∧ (handleChunk cfg w idx data hint).2.chunks = w.chunks := by
  have hne : chunkPath cfg.tempDir w.upload.id idx ++ ".partial"
      ≠ chunkPath cfg.tempDir w.upload.id idx :=
    append_ne_self _ ".partial" (by decide)
  unfold handleChunk
  rw [if_neg hs1, if_neg hs2, if_neg hs3,
    if_neg (by omega : ¬ idx < w.upload.receivedChunks),
    if_neg (by omega : ¬ idx > w.upload.receivedChunks)]
  simp only [writeChunk]
  rw [if_pos ⟨hhint, hmm⟩]
  refine ⟨rfl, rfl, ?_, ?_, rfl, rfl⟩
  · exact fsRead_fsRemove_self _ _
  · rw [fsRead_fsRemove_ne _ _ _ hne]
    simp only [fsRename, fsRead_fsWrite_self]
    rw [fsRead_fsWrite_ne _ _ _ _ hne]
    exact fsRead_fsRemove_self _ _

set_option maxRecDepth 100000 in
/-- C7 witness: a concrete chunk with a wrong checksum hint. -/
theorem c7_witness :
    (handleChunk cfgDefault wC7 0 [97] "00").1
        = .error (.msg ("checksum mismatch for chunk " ++ toString (0 : Int)))
    ∧ fsRead (handleChunk cfgDefault wC7 0 [97] "00").2.fs
        (chunkPath cfgDefault.tempDir wC7.upload.id 0) = none
    ∧ (handleChunk cfgDefault wC7 0 [97] "00").2.upload = wC7.upload := by
  have h := c7_checksum_mismatch cfgDefault wC7 0 [97] "00"
    (by decide) (by decide) (by decide) (by decide) (by decide) (by decide)
  exact ⟨h.1, h.2.2.1, h.2.2.2.2.1⟩

/-! ## Digest and path-format lemmas for the scratch store -/

theorem length_mk (l : List Char) : (String.mk l).length = l.length := rfl

theorem toBytesBE_length (n x : Nat) : (toBytesBE n x).length = n := by
  induction n generalizing x with
  | zero => rfl
  | succ k ih => simp [toBytesBE, ih]

theorem toBytesBE_lt (n x : Nat) : ∀ b ∈ toBytesBE n x, b < 256 := by
  induction n generalizing x with
  | zero =>
    intro b hb
    cases hb
  | succ k ih =>
    intro b hb
    simp only [toBytesBE, List.mem_append, List.mem_singleton] at hb
    rcases hb with hb | hb
    · exact ih _ b hb
    · subst hb
      exact Nat.mod_lt _ (by norm_num)

theorem sha256_length (msg : List Nat) : (sha256 msg).length = 32 := by
  simp [sha256, toBytesBE_length]

theorem sha256_lt (msg : List Nat) : ∀ b ∈ sha256 msg, b < 256 := by
  intro b hb
  simp only [sha256, List.mem_append] at hb
  rcases hb with ((((((hb | hb) | hb) | hb) | hb) | hb) | hb) | hb <;>
    exact toBytesBE_lt _ _ b hb

theorem hexDigit_lowerHexChar (n : Nat) (h : n < 16) : isLowerHexChar (hexDigit n) = true := by
  interval_cases n <;> decide

theorem hexEncode_lower (bs : List Nat) (h : ∀ b ∈ bs, b < 256) :
    isLowerHex (hexEncode bs) = true := by
  unfold isLowerHex hexEncode
  rw [show (String.mk (bs.flatMap byteHex)).data = bs.flatMap byteHex from rfl,
    List.all_eq_true]
  intro c hc
  rw [List.mem_flatMap] at hc
  obtain ⟨b, hb, hcb⟩ := hc
  have hlt := h b hb
  simp only [byteHex, List.mem_cons, List.mem_singleton, List.not_mem_nil, or_false] at hcb
  rcases hcb with hc1 | hc1
  · subst hc1
    exact hexDigit_lowerHexChar _ (by omega)
  · subst hc1
    exact hexDigit_lowerHexChar _ (by omega)

theorem hexEncode_length (bs : List Nat) : (hexEncode bs).length = 2 * bs.length := by
  unfold hexEncode
  rw [length_mk]
  induction bs with
  | nil => rfl
  | cons b rest ih =>
    rw [List.flatMap_cons, List.length_append, ih]
    simp only [byteHex, List.length_cons, List.length_nil, List.length_singleton]
    omega

theorem digitChar_isDigit (n : Nat) (h : n < 10) :
    (decide ('0' ≤ digitChar n) && decide (digitChar n ≤ '9')) = true := by
  interval_cases n <;> decide

theorem natDigits_all (n : Nat) :
    ∀ c ∈ natDigits n, (decide ('0' ≤ c) && decide (c ≤ '9')) = true := by
  induction n using Nat.strong_induction_on with
  | _ n ih =>
    intro c hc
    rw [natDigits] at hc
    split at hc
    · rename_i h
      simp only [List.mem_singleton] at hc
      subst hc
      exact digitChar_isDigit n h
    · rename_i h
      rw [List.mem_append] at hc
      rcases hc with hc | hc
      · exact ih (n / 10) (Nat.div_lt_self (by omega) (by norm_num)) c hc
      · simp only [List.mem_singleton] at hc
        subst hc
        exact digitChar_isDigit _ (Nat.mod_lt _ (by norm_num))

theorem natDigits_length_le (k : Nat) : ∀ n, n < 10 ^ (k + 1) → (natDigits n).length ≤ k + 1 := by
  induction k with
  | zero =>
    intro n h
    rw [natDigits, dif_pos (by omega : n < 10)]
    simp
  | succ k ih =>
    intro n h
    by_cases hn : n < 10
    · rw [natDigits, dif_pos hn]
      simp
    · rw [natDigits, dif_neg hn]
      have h10 : n / 10 < 10 ^ (k + 1) := by
        rw [Nat.div_lt_iff_lt_mul (by norm_num)]
        rw [pow_succ] at h
        exact h
      have := ih (n / 10) h10
      simp only [List.length_append, List.length_cons, List.length_nil]
      omega

theorem pad5_length (idx : Int) (h0 : 0 ≤ idx) (h5 : idx < 100000) : (pad5 idx).length = 5 := by
  unfold pad5
  rw [if_neg (by omega : ¬ idx < 0)]
  have hnat : idx.toNat < 10 ^ 5 := by
    have : (10 : Nat) ^ 5 = 100000 := by norm_num
    omega
  have hlen : (natDigits idx.toNat).length ≤ 5 := natDigits_length_le 4 _ hnat
  unfold padZeros
  simp only [length_mk, List.length_append, List.length_replicate]
  omega

theorem pad5_digits (idx : Int) (h0 : 0 ≤ idx) : isDigitStr (pad5 idx) = true := by
  unfold pad5
  rw [if_neg (by omega : ¬ idx < 0)]
  unfold isDigitStr padZeros
  rw [show ∀ l : List Char, (String.mk l).data = l from fun _ => rfl, List.all_eq_true]
  intro c hc
  rw [List.mem_append] at hc
  rcases hc with hc | hc
  · have := List.eq_of_mem_replicate hc
    subst this
    decide
  · exact natDigits_all _ c hc

/-! ## Claim C8 — the scratch write contract -/

/-- C8: every scratch write stages the bytes at `<final>.partial`,
closes the file, then renames it to
`<root>/<session>/chunks/chunk-<5-digit zero-padded index>`; the
returned digest is the lowercase hex SHA-256 (64 lowercase hex
characters) of exactly the bytes written; the returned count is their
length; afterwards the final path holds the bytes and no `.partial`
file remains. -/
theorem c8_write_chunk (basePath uploadID : String) (idx : Int) (data : List Nat) (fs : Fs)
    (h0 : 0 ≤ idx) (h5 : idx < 100000) :
    (writeChunk basePath uploadID idx data fs).path
        = basePath ++ "/" ++ uploadID ++ "/chunks/chunk-" ++ pad5 idx
    ∧ (pad5 idx).length = 5
    ∧ isDigitStr (pad5 idx) = true
    ∧ (writeChunk basePath uploadID idx data fs).size = (data.length : Int)
    ∧ (writeChunk basePath uploadID idx data fs).checksum = hexEncode (sha256 data)
    ∧ isLowerHex (writeChunk basePath uploadID idx data fs).checksum = true
    ∧ ((writeChunk basePath uploadID idx data fs).checksum).length = 64
    ∧ (writeChunk basePath uploadID idx data fs).trace
        = [FsEvent.create ((writeChunk basePath uploadID idx data fs).path ++ ".partial"),
           FsEvent.write ((writeChunk basePath uploadID idx data fs).path ++ ".partial") data,
           FsEvent.close ((writeChunk basePath uploadID idx data fs).path ++ ".partial"),
           FsEvent.rename ((writeChunk basePath uploadID idx data fs).path ++ ".partial")
             ((writeChunk basePath uploadID idx data fs).path)]
    ∧ fsRead (writeChunk basePath uploadID idx data fs).fs
        (writeChunk basePath uploadID idx data fs).path = some data
    ∧ fsRead (writeChunk basePath uploadID idx data fs).fs
        ((writeChunk basePath uploadID idx data fs).path ++ ".partial") = none := by
  have hne : chunkPath basePath uploadID idx ++ ".partial" ≠ chunkPath basePath uploadID idx :=
    append_ne_self _ ".partial" (by decide)
  refine ⟨rfl, pad5_length idx h0 h5, pad5_digits idx h0, rfl, rfl, ?_, ?_, rfl, ?_, ?_⟩
  · exact hexEncode_lower _ (sha256_lt data)
  · rw [show (writeChunk basePath uploadID idx data fs).checksum
        = hexEncode (sha256 data) from rfl]
    rw [hexEncode_length, sha256_length]
  · show fsRead (fsRename (fsWrite fs _ data) _ _) _ = some data
    simp only [fsRename, fsRead_fsWrite_self]
    exact fsRead_fsWrite_self _ _ _
  · rw [show (writeChunk basePath uploadID idx data fs).path
        = chunkPath basePath uploadID idx from rfl]
    show fsRead (fsRename (fsWrite fs _ data) _ _) _ = none
    simp only [fsRename, fsRead_fsWrite_self]
    rw [fsRead_fsWrite_ne _ _ _ _ hne]
    exact fsRead_fsRemove_self _ _

set_option maxRecDepth 100000 in
/-- C8 witness at a concrete write. -/
theorem c8_witness :
    (writeChunk "t" "s8" 3 [1, 2] []).path = "t" ++ "/" ++ "s8" ++ "/chunks/chunk-" ++ pad5 3
    ∧ (pad5 3).length = 5
    ∧ (writeChunk "t" "s8" 3 [1, 2] []).checksum = hexEncode (sha256 [1, 2])
    ∧ fsRead (writeChunk "t" "s8" 3 [1, 2] []).fs
        ((writeChunk "t" "s8" 3 [1, 2] []).path ++ ".partial") = none := by
  have h := c8_write_chunk "t" "s8" 3 [1, 2] [] (by decide) (by decide)
  exact ⟨h.1, h.2.1, h.2.2.2.2.1, h.2.2.2.2.2.2.2.2.2⟩

/-! ## Claim C4 — finalize preconditions -/

theorem pushChunks_error (fs : Fs) (dir : String) (cs : List UploadChunk)
    (gh : List (String × GhObject))
    (h : ∃ c ∈ cs, fsRead fs c.tempPath = none) :
    ∃ e gh1, pushChunks fs dir cs gh = (.error e, gh1) := by
  induction cs generalizing gh with
  | nil =>
    obtain ⟨c, hc, _⟩ := h
    cases hc
  | cons c rest ih =>
    obtain ⟨d, hd, hread⟩ := h
    rcases List.mem_cons.mp hd with hdc | hdrest
    · subst hdc
      unfold pushChunks
      rw [hread]
      exact ⟨_, gh, rfl⟩
    · unfold pushChunks
      cases hfr : fsRead fs c.tempPath with
      | none => exact ⟨_, gh, rfl⟩
      | some dta => exact ih _ ⟨d, hdrest, hread⟩

/-- C4, as stated, is false: a session whose recorded chunk bytes sum
to 5 while the declared size is 10 still finalizes successfully and
completes — no size-sum precondition exists, and no mismatch
transitions the session to `failed`. -/
theorem c4_counterexample :
    sumChunkSizes wC4.chunks = 5 ∧ wC4.upload.totalSizeBytes = 10
    ∧ (finalize cfgDefault wC4 0).1
        = .ok { fileId := 7, path := "/docs", name := "f.bin", sizeBytes := 10, completedAt := 0 }
    ∧ (finalize cfgDefault wC4 0).2.upload.status = .completed := by decide

/-- C4 amended: before materialization the service checks only that
`received_chunks = total_chunks` and that `list_chunks` returns exactly
`total_chunks` rows; a row-count mismatch is returned as an error with
the session state (status included) unchanged, not `failed`; scratch
readability is not pre-checked and the byte-count sum is never compared
with the declared size — a missing scratch file instead surfaces during
repo-chunks materialization, which transitions the session to
`failed`. -/
theorem c4_amended (cfg : Config) (w : World) (now : Nat)
    (hnc : ¬ (w.upload.status = .completed ∧ w.upload.fileID.isSome = true))
    (hrc : w.upload.receivedChunks = w.upload.totalChunks) :
    (((listChunks w.chunks).length : Int) ≠ w.upload.totalChunks →
      finalize cfg w now
        = (.error (.msg ("chunk manifest incomplete (" ++ toString (listChunks w.chunks).length
            ++ "/" ++ toString w.upload.totalChunks ++ ")")), w))
    ∧ (((listChunks w.chunks).length : Int) = w.upload.totalChunks →
       (w.upload.strategy = .repoChunks ∨ w.upload.strategy = .gitLFS) →
       (∃ c ∈ listChunks w.chunks, fsRead w.fs c.tempPath = none) →
       (∃ e, (finalize cfg w now).1 = .error e)
         ∧ (finalize cfg w now).2.upload.status = .failed) := by
  constructor
  · intro hlen
    unfold finalize
    rw [if_neg hnc, if_neg (by omega : ¬ w.upload.receivedChunks ≠ w.upload.totalChunks),
      if_pos hlen]
  · intro hlen hstrat hmiss
    obtain ⟨e, gh1, hpush⟩ := pushChunks_error w.fs
      ("uploads/" ++ w.upload.userID ++ "/" ++ w.upload.id ++ "/chunks")
      (listChunks w.chunks) w.gh hmiss
    unfold finalize
    rw [if_neg hnc, if_neg (by omega : ¬ w.upload.receivedChunks ≠ w.upload.totalChunks),
      if_neg (not_not_intro hlen)]
    unfold materialize
    dsimp only
    rcases hstrat with hstrat | hstrat <;>
    · rw [hstrat]
      dsimp only
      unfold finalizeRepoChunks
      dsimp only
      rw [hpush]
      exact ⟨⟨e, rfl⟩, rfl⟩

set_option maxRecDepth 100000 in
/-- C4 amended witness: a missing chunk row yields an error with the
status untouched; a missing scratch file fails the session during
materialization. -/
theorem c4_witness :
    finalize cfgDefault wC4i 0
      = (.error (.msg ("chunk manifest incomplete ("
          ++ toString (listChunks wC4i.chunks).length
          ++ "/" ++ toString wC4i.upload.totalChunks ++ ")")), wC4i)
    ∧ (∃ e, (finalize cfgDefault wC4ii 0).1 = .error e)
    ∧ (finalize cfgDefault wC4ii 0).2.upload.status = .failed := by
  have h1 := (c4_amended cfgDefault wC4i 0 (by decide) (by decide)).1 (by decide)
  have h2 := (c4_amended cfgDefault wC4ii 0 (by decide) (by decide)).2 (by decide)
    (Or.inl (by decide))
    ⟨{ chunkIndex := 0, sizeBytes := 5, checksum := "c0"
       tempPath := "tmp/uploads/sess/chunks/chunk-00000" }, by decide, by decide⟩
  exact ⟨h1, h2.1, h2.2⟩

/-! ## Claim C9 — finalize replay on a completed session -/

theorem insertFileRecord_upload (w : World) (a b : String) (s : Int) (p r : String)
    (st : StorageStrategy) (bp : String) (m : FileMeta) :
    (insertFileRecord w a b s p r st bp m).2.upload = w.upload := rfl

theorem uploadReleaseAsset_upload (w : World) (rid : Nat) (name : String) :
    (uploadReleaseAsset w rid name).2.upload = w.upload := rfl

theorem ensureRelease_upload (w : World) (tag : String) :
    (ensureRelease w tag).2.upload = w.upload := by
  unfold ensureRelease
  split <;> rfl

/-- The materializers never touch the identity coordinates of the
session row: target path, filename and declared size survive
materialization (only `manifest_path` can change on the row). -/
theorem materialize_upload_fields (cfg : Config) (w : World) (cs : List UploadChunk) (now : Nat) :
    (materialize cfg w cs now).2.upload.targetPath = w.upload.targetPath
    ∧ (materialize cfg w cs now).2.upload.filename = w.upload.filename
    ∧ (materialize cfg w cs now).2.upload.totalSizeBytes = w.upload.totalSizeBytes := by
  unfold materialize
  split <;>
  first
  | (unfold finalizeRepoChunks
     dsimp only
     split <;> simp [insertFileRecord])
  | (unfold finalizeReleaseAsset
     dsimp only
     split <;>
       simp [insertFileRecord_upload, uploadReleaseAsset_upload, ensureRelease_upload])

/-- C9: whenever finalize succeeds, calling finalize again on the
resulting state succeeds with no further state change and returns the
same file id, logical path, name and size as the original call. -/
theorem c9_finalize_replay (cfg : Config) (w : World) (now now2 : Nat) (r1 : FinalizeResult)
    (h : (finalize cfg w now).1 = .ok r1) :
    ∃ r2, finalize cfg ((finalize cfg w now).2) now2 = (.ok r2, (finalize cfg w now).2)
      ∧ r2.fileId = r1.fileId ∧ r2.path = r1.path ∧ r2.name = r1.name
      ∧ r2.sizeBytes = r1.sizeBytes := by
  by_cases h1 : w.upload.status = .completed ∧ w.upload.fileID.isSome = true
  · have heval : finalize cfg w now
        = (.ok { fileId := w.upload.fileID.getD 0, path := w.upload.targetPath
                 name := w.upload.filename, sizeBytes := w.upload.totalSizeBytes
                 completedAt := w.upload.completedAt.getD now }, w) := by
      unfold finalize
      rw [if_pos h1]
    rw [heval] at h
    have hr1 : r1 = { fileId := w.upload.fileID.getD 0, path := w.upload.targetPath
                      name := w.upload.filename, sizeBytes := w.upload.totalSizeBytes
                      completedAt := w.upload.completedAt.getD now } :=
      (Except.ok.inj h).symm
    rw [heval]
    refine ⟨{ fileId := w.upload.fileID.getD 0, path := w.upload.targetPath
              name := w.upload.filename, sizeBytes := w.upload.totalSizeBytes
              completedAt := w.upload.completedAt.getD now2 },
      by unfold finalize; rw [if_pos h1], ?_, ?_, ?_, ?_⟩ <;> rw [hr1]
  · by_cases h2 : w.upload.receivedChunks ≠ w.upload.totalChunks
    · exfalso
      have heval : (finalize cfg w now).1
          = .error (.msg ("cannot finalize: received " ++ toString w.upload.receivedChunks
              ++ "/" ++ toString w.upload.totalChunks ++ " chunks")) := by
        unfold finalize
        rw [if_neg h1, if_pos h2]
      rw [heval] at h
      cases h
    · by_cases h3 : ((listChunks w.chunks).length : Int) ≠ w.upload.totalChunks
      · exfalso
        have heval : (finalize cfg w now).1
            = .error (.msg ("chunk manifest incomplete (" ++ toString (listChunks w.chunks).length
                ++ "/" ++ toString w.upload.totalChunks ++ ")")) := by
          unfold finalize
          rw [if_neg h1, if_neg h2, if_pos h3]
        rw [heval] at h
        cases h
      · rcases hm : materialize cfg { w with upload := { w.upload with status := .processing } }
            (listChunks w.chunks) now with ⟨ex, w2⟩
        have hfields := materialize_upload_fields cfg
          { w with upload := { w.upload with status := .processing } } (listChunks w.chunks) now
        rw [hm] at hfields
        cases ex with
        | error e =>
          exfalso
          have heval : (finalize cfg w now).1 = .error e := by
            unfold finalize
            rw [if_neg h1, if_neg h2, if_neg h3]
            dsimp only
            rw [hm]
          rw [heval] at h
          cases h
        | ok fid =>
          have heval : finalize cfg w now
              = (.ok { fileId := fid, path := w.upload.targetPath, name := w.upload.filename
                       sizeBytes := w.upload.totalSizeBytes, completedAt := now },
                 { w2 with
                     upload := { w2.upload with fileID := some fid, status := .completed
                                                completedAt := some now }
                     usageBytes := w2.usageBytes + w.upload.totalSizeBytes
                     usageFiles := w2.usageFiles + 1
                     fs := fsRemoveTree w2.fs cfg.tempDir w.upload.id }) := by
            unfold finalize
            rw [if_neg h1, if_neg h2, if_neg h3]
            dsimp only
            rw [hm]
          rw [heval] at h
          have hr1 : r1 = { fileId := fid, path := w.upload.targetPath
                            name := w.upload.filename, sizeBytes := w.upload.totalSizeBytes
                            completedAt := now } :=
            (Except.ok.inj h).symm
          rw [heval]
          refine ⟨{ fileId := fid, path := w2.upload.targetPath, name := w2.upload.filename
                    sizeBytes := w2.upload.totalSizeBytes, completedAt := now },
            ?_, ?_, ?_, ?_, ?_⟩
          · unfold finalize
            rw [if_pos ⟨rfl, rfl⟩]
            rfl
          · rw [hr1]
          · rw [hr1]
            exact hfields.1
          · rw [hr1]
            exact hfields.2.1
          · rw [hr1]
            exact hfields.2.2

set_option maxRecDepth 100000 in
/-- C9 witness: a concrete successful finalize followed by a replay. -/
theorem c9_witness :
    ∃ r2, finalize cfgDefault ((finalize cfgDefault wC9 5).2) 6
        = (.ok r2, (finalize cfgDefault wC9 5).2)
      ∧ r2.fileId = 7 ∧ r2.path = "/docs" ∧ r2.name = "f.bin" ∧ r2.sizeBytes = 5 := by
  have h := c9_finalize_replay cfgDefault wC9 5 6
    { fileId := 7, path := "/docs", name := "f.bin", sizeBytes := 5, completedAt := 5 }
    (by decide)
  exact h

end Stash
